import Mathlib

/-!
Shallow embedding of the PatentVault dashboard's business logic
(`src/App.tsx`, `src/services/geminiService.ts`, and the mock service
variant shipped alongside the vite configuration): the alert-window
computation, the import deduplicator, the filter view, the export
formatter, the delete/update store operations, and the AI adapter's
failure handling.  Dates are epoch milliseconds as integers; JavaScript
strings are Lean `String`s; a JS value that may be `undefined` is an
`Option`.
-/

namespace LegalReport

/-- Patent status enumeration (source values '存續中', '已屆期', '審查中'). -/
inductive PatentStatus where
  | Active
  | Expired
  | UnderExamination
deriving DecidableEq

/-- Patent type enumeration (source values '發明', '新型', '設計'). -/
inductive PatentType where
  | Invention
  | Utility
  | Design
deriving DecidableEq

/-- A record id is a JS string or number (`Patent.id: string | number`). -/
inductive PatentId where
  | str (s : String)
  | num (n : Int)
deriving DecidableEq

/-- JS `String(id)`: a string id is itself, a numeric id is printed. -/
def idToString : PatentId → String
  | .str s => s
  | .num n => toString n

/-- JS strict equality `===` on ids: no coercion between strings and numbers. -/
def idStrictEq : PatentId → PatentId → Bool
  | .str a, .str b => a == b
  | .num a, .num b => a == b
  | _, _ => false

/-- Modelled from the spec: a fully-populated `Patent` record of the
absent `types.ts`.  Spec section 3 makes the descriptive fields optional
except the name, so this structure is the record with all its searched
fields present; records with absent fields are modelled where their
absence matters — `RawPatent` for the filter's field accesses and
`StoredPatent` for the export formatter.  `annuityDate` is an optional
calendar date (here epoch milliseconds, `none` for a blank/absent value,
matching the `!patent.annuityDate` guard in the alert code). -/
structure Patent where
  id : PatentId
  name : String
  patentee : String
  country : String
  inventor : String
  status : PatentStatus
  type : PatentType
  appNumber : String
  pubNumber : String
  appDate : String
  pubDate : String
  duration : String
  annuityDate : Option Int
  annuityYear : Nat
  notificationEmails : Option String
  link : Option String
deriving DecidableEq

/-- JS `s.includes(pat)`: `pat` is a contiguous substring of `s`. -/
def strIncludes (s pat : String) : Bool := decide (pat.data <:+: s.data)

/-- JS `s.trim()`: strip leading and trailing whitespace. -/
def jsTrim (s : String) : String :=
  ⟨((s.data.dropWhile Char.isWhitespace).reverse.dropWhile Char.isWhitespace).reverse⟩

/-- Milliseconds per day, the divisor `1000 * 60 * 60 * 24` of the alert rule. -/
def msPerDay : Int := 1000 * 60 * 60 * 24

/-- JS `Math.ceil(a / b)` for integer `a` and positive integer `b`:
the negated floor (Euclidean) division of the negation. -/
def ceilDiv (a b : Int) : Int := -((-a) / b)

/-- One step of the `reduce` in the alert `useEffect` of `App.tsx`:
skip a record without an annuity date, otherwise add one exactly when
`diffDays > 0 && diffDays <= 90 && status === Active`. -/
def alertStep (today : Int) (acc : Nat) (p : Patent) : Nat :=
  match p.annuityDate with
  | none => acc
  | some due =>
    let diffDays := ceilDiv (due - today) msPerDay
    if diffDays > 0 ∧ diffDays ≤ 90 ∧ p.status = PatentStatus.Active then acc + 1 else acc

/-- The alert calculator of `App.tsx`: `patents.reduce(..., 0)`. -/
def alertCount (patents : List Patent) (today : Int) : Nat :=
  patents.foldl (alertStep today) 0

/-- The alert rule as the spec states it, for the refinement comparison:
a record counts when it has an annuity date, its status is Active, and
`0 < ceil((annuityDate - today) / 1 day) <= 90`. -/
def specAlert (today : Int) (p : Patent) : Bool :=
  match p.annuityDate with
  | none => false
  | some due =>
    decide (p.status = PatentStatus.Active) &&
      decide (0 < ceilDiv (due - today) msPerDay) &&
      decide (ceilDiv (due - today) msPerDay ≤ 90)

theorem alertStep_eq (today : Int) (acc : Nat) (p : Patent) :
    alertStep today acc p = acc + (if specAlert today p then 1 else 0) := by
  unfold alertStep specAlert
  cases p.annuityDate with
  | none => simp
  | some due =>
    by_cases h1 : 0 < ceilDiv (due - today) msPerDay <;>
      by_cases h2 : ceilDiv (due - today) msPerDay ≤ 90 <;>
      by_cases h3 : p.status = PatentStatus.Active <;>
      simp [h1, h2, h3]

theorem alertCount_go (today : Int) (ps : List Patent) (acc : Nat) :
    ps.foldl (alertStep today) acc = acc + ps.countP (specAlert today) := by
  induction ps generalizing acc with
  | nil => simp
  | cons p rest ih =>
    simp only [List.foldl_cons, List.countP_cons, ih, alertStep_eq]
    by_cases h : specAlert today p <;> simp [h] <;> omega

theorem ceilDiv_mul (k : Int) : ceilDiv (k * msPerDay) msPerDay = k := by
  unfold ceilDiv msPerDay
  rw [show -(k * (1000 * 60 * 60 * 24)) = (-k) * (1000 * 60 * 60 * 24) by ring]
  rw [Int.mul_ediv_cancel _ (by norm_num)]
  ring

theorem ceilDiv_zero_msPerDay : ceilDiv 0 msPerDay = 0 := by decide

/-- C1: the alert calculator's count equals the number of records that have
an annuity date, have status Active, and satisfy
`0 < ceil((annuityDate - today) / 1 day) <= 90`; a record with no annuity
date is never counted, a record due exactly today is not counted, a record
due in exactly 90 days is counted, a record due in 91 days is not, and a
record with a non-Active status is never counted regardless of date. -/
theorem alertCount_spec (ps : List Patent) (today : Int) :
    alertCount ps today = ps.countP (specAlert today) ∧
    (∀ p : Patent, specAlert today { p with annuityDate := none } = false) ∧
    (∀ p : Patent, specAlert today
      { p with status := PatentStatus.Active,
               annuityDate := some (today + 90 * msPerDay) } = true) ∧
    (∀ p : Patent, specAlert today
      { p with status := PatentStatus.Active,
               annuityDate := some (today + 91 * msPerDay) } = false) ∧
    (∀ p : Patent, specAlert today { p with annuityDate := some today } = false) ∧
    (∀ (p : Patent) (d : Option Int), specAlert today
      { p with status := PatentStatus.Expired, annuityDate := d } = false) ∧
    (∀ (p : Patent) (d : Option Int), specAlert today
      { p with status := PatentStatus.UnderExamination, annuityDate := d } = false) := by
  refine ⟨?_, ?_, ?_, ?_, ?_, ?_, ?_⟩
  · simpa [alertCount] using alertCount_go today ps 0
  · intro p; simp [specAlert]
  · intro p
    simp [specAlert, ceilDiv_mul]
  · intro p
    simp [specAlert, ceilDiv_mul]
  · intro p
    simp [specAlert, ceilDiv_zero_msPerDay]
  · intro p d
    cases d <;> simp [specAlert]
  · intro p d
    cases d <;> simp [specAlert]

/-- The status dropdown value: a concrete status or 'ALL' (no filter). -/
inductive StatusFilter where
  | all
  | status (s : PatentStatus)
deriving DecidableEq

/-- The search half of the filter in `App.tsx`: the term is a literal
substring of the name, application number, publication number, country or
patentee. -/
def matchesSearch (p : Patent) (term : String) : Bool :=
  strIncludes p.name term || strIncludes p.appNumber term ||
    strIncludes p.pubNumber term || strIncludes p.country term ||
    strIncludes p.patentee term

/-- The status half of the filter in `App.tsx`:
`statusFilter === 'ALL' || patent.status === statusFilter`. -/
def matchesStatus (p : Patent) (f : StatusFilter) : Bool :=
  match f with
  | .all => true
  | .status s => p.status == s

/-- `filteredPatents` of `App.tsx`: keep the records matching both halves. -/
def filteredPatents (ps : List Patent) (term : String) (f : StatusFilter) : List Patent :=
  ps.filter (fun p => matchesSearch p term && matchesStatus p f)

/-- The Filter View contract as the spec states it, for the refinement
comparison: the status filter matches (or is 'no filter') and the term is a
literal case-sensitive substring of at least one of the five fields. -/
def specFilterPred (term : String) (f : StatusFilter) (p : Patent) : Bool :=
  decide ((f = StatusFilter.all ∨ f = StatusFilter.status p.status) ∧
    (term.data <:+: p.name.data ∨ term.data <:+: p.appNumber.data ∨
      term.data <:+: p.pubNumber.data ∨ term.data <:+: p.country.data ∨
      term.data <:+: p.patentee.data))

theorem filter_pred_eq (term : String) (f : StatusFilter) (p : Patent) :
    (matchesSearch p term && matchesStatus p f) = specFilterPred term f p := by
  rw [Bool.eq_iff_iff]
  cases f with
  | all =>
    simp only [matchesSearch, matchesStatus, specFilterPred, strIncludes, Bool.and_true,
      Bool.or_eq_true, decide_eq_true_eq, or_assoc]
    tauto
  | status s =>
    simp only [matchesSearch, matchesStatus, specFilterPred, strIncludes, Bool.and_eq_true,
      Bool.or_eq_true, decide_eq_true_eq, beq_iff_eq, reduceCtorEq, false_or,
      StatusFilter.status.injEq, or_assoc]
    constructor
    · rintro ⟨h1, h2⟩; exact ⟨h2.symm, h1⟩
    · rintro ⟨h1, h2⟩; exact ⟨h2, h1.symm⟩

/-- C5: the filter view returns exactly the ordered subsequence of records
whose status matches the filter (or the filter is 'ALL') and for which the
search term is a literal case-sensitive substring of at least one of name,
application number, publication number, country or patentee; it is a
subsequence of the store (original order preserved), and the empty term
with no status filter returns every record. -/
theorem filteredPatents_spec (ps : List Patent) (term : String) (f : StatusFilter) :
    filteredPatents ps term f = ps.filter (specFilterPred term f) ∧
    (filteredPatents ps term f).Sublist ps ∧
    filteredPatents ps "" StatusFilter.all = ps := by
  refine ⟨?_, ?_, ?_⟩
  · unfold filteredPatents
    exact List.filter_congr (fun p _ => filter_pred_eq term f p)
  · exact List.filter_sublist _
  · unfold filteredPatents
    have h : ∀ p : Patent, (matchesSearch p "" && matchesStatus p StatusFilter.all) = true := by
      intro p
      simp [matchesSearch, matchesStatus, strIncludes, show ("" : String).data = [] from rfl,
        List.nil_infix]
    simp [List.filter_congr (fun p _ => h p)]

/-- A stored record as the filter predicate accesses it: each of the five
searched fields may be absent (`undefined` in JS), in which case calling
`.includes` on it would fail. -/
structure RawPatent where
  name : Option String
  appNumber : Option String
  pubNumber : Option String
  country : Option String
  patentee : Option String
deriving DecidableEq

/-- JS evaluation of the filter's search test
`p.name.includes(t) || p.appNumber.includes(t) || ... || p.patentee.includes(t)`
over a record with possibly-absent fields: `||` short-circuits left to
right, and reading `.includes` of an absent field fails (`none`). -/
def matchesSearchRaw (p : RawPatent) (term : String) : Option Bool :=
  match p.name with
  | none => none
  | some v1 =>
    if strIncludes v1 term then some true else
    match p.appNumber with
    | none => none
    | some v2 =>
      if strIncludes v2 term then some true else
      match p.pubNumber with
      | none => none
      | some v3 =>
        if strIncludes v3 term then some true else
        match p.country with
        | none => none
        | some v4 =>
          if strIncludes v4 term then some true else
          match p.patentee with
          | none => none
          | some v5 => some (strIncludes v5 term)

theorem strIncludes_false_of_lt (s t : String) (h : s.data.length < t.data.length) :
    strIncludes s t = false := by
  unfold strIncludes
  simp only [decide_eq_false_iff_not]
  intro hin
  exact absurd hin.length_le (by omega)

/-- C10: the filter's substring test over a stored record succeeds for every
search term exactly when all five searched fields (name, application number,
publication number, country, patentee) are present string values; a record
missing one of them makes the test undefined for some term.  On records with
all five fields present the raw evaluation agrees with the total filter
predicate. -/
theorem matchesSearchRaw_total_iff :
    (∀ p : RawPatent, (∀ term, (matchesSearchRaw p term).isSome) ↔
      (p.name.isSome ∧ p.appNumber.isSome ∧ p.pubNumber.isSome ∧
        p.country.isSome ∧ p.patentee.isSome)) ∧
    (∀ (q : Patent) (term : String),
      matchesSearchRaw
        { name := some q.name, appNumber := some q.appNumber, pubNumber := some q.pubNumber,
          country := some q.country, patentee := some q.patentee } term =
        some (matchesSearch q term)) := by
  constructor
  · intro p
    constructor
    · intro htot
      cases hnm : p.name with
      | none =>
        exfalso
        have := htot ""
        simp [matchesSearchRaw, hnm] at this
      | some n =>
      cases hap : p.appNumber with
      | none =>
        exfalso
        have h1 : strIncludes n (n ++ "x") = false :=
          strIncludes_false_of_lt _ _ (by simp [String.data_append]; try omega)
        have := htot (n ++ "x")
        simp [matchesSearchRaw, hnm, hap, h1] at this
      | some a =>
      cases hpb : p.pubNumber with
      | none =>
        exfalso
        have h1 : strIncludes n (n ++ a ++ "x") = false :=
          strIncludes_false_of_lt _ _ (by simp [String.data_append]; try omega)
        have h2 : strIncludes a (n ++ a ++ "x") = false :=
          strIncludes_false_of_lt _ _ (by simp [String.data_append]; try omega)
        have := htot (n ++ a ++ "x")
        simp [matchesSearchRaw, hnm, hap, hpb, h1, h2] at this
      | some pb =>
      cases hco : p.country with
      | none =>
        exfalso
        have h1 : strIncludes n (n ++ a ++ pb ++ "x") = false :=
          strIncludes_false_of_lt _ _ (by simp [String.data_append]; try omega)
        have h2 : strIncludes a (n ++ a ++ pb ++ "x") = false :=
          strIncludes_false_of_lt _ _ (by simp [String.data_append]; try omega)
        have h3 : strIncludes pb (n ++ a ++ pb ++ "x") = false :=
          strIncludes_false_of_lt _ _ (by simp [String.data_append]; try omega)
        have := htot (n ++ a ++ pb ++ "x")
        simp [matchesSearchRaw, hnm, hap, hpb, hco, h1, h2, h3] at this
      | some c =>
      cases hpt : p.patentee with
      | none =>
        exfalso
        have h1 : strIncludes n (n ++ a ++ pb ++ c ++ "x") = false :=
          strIncludes_false_of_lt _ _ (by simp [String.data_append]; try omega)
        have h2 : strIncludes a (n ++ a ++ pb ++ c ++ "x") = false :=
          strIncludes_false_of_lt _ _ (by simp [String.data_append]; try omega)
        have h3 : strIncludes pb (n ++ a ++ pb ++ c ++ "x") = false :=
          strIncludes_false_of_lt _ _ (by simp [String.data_append]; try omega)
        have h4 : strIncludes c (n ++ a ++ pb ++ c ++ "x") = false :=
          strIncludes_false_of_lt _ _ (by simp [String.data_append]; try omega)
        have := htot (n ++ a ++ pb ++ c ++ "x")
        simp [matchesSearchRaw, hnm, hap, hpb, hco, hpt, h1, h2, h3, h4] at this
      | some pt =>
        simp [hnm, hap, hpb, hco, hpt]
    · rintro ⟨hn, ha, hp, hc, hpt⟩ term
      obtain ⟨n, hn⟩ := Option.isSome_iff_exists.mp hn
      obtain ⟨a, ha⟩ := Option.isSome_iff_exists.mp ha
      obtain ⟨pb, hp⟩ := Option.isSome_iff_exists.mp hp
      obtain ⟨c, hc⟩ := Option.isSome_iff_exists.mp hc
      obtain ⟨pt, hpt⟩ := Option.isSome_iff_exists.mp hpt
      simp only [matchesSearchRaw, hn, ha, hp, hc, hpt]
      repeat' split
      all_goals simp
  · intro q term
    simp only [matchesSearchRaw, matchesSearch]
    by_cases h1 : strIncludes q.name term <;>
      by_cases h2 : strIncludes q.appNumber term <;>
      by_cases h3 : strIncludes q.pubNumber term <;>
      by_cases h4 : strIncludes q.country term <;>
      simp [h1, h2, h3, h4]

/-- `existingAppNumbers` of `handleImportPatent`: the trimmed, non-blank
application numbers of the stored records
(`patents.map(p => p.appNumber ? p.appNumber.trim() : null).filter(Boolean)`). -/
def existingAppNumbers (ps : List Patent) : List String :=
  ps.filterMap (fun p => if jsTrim p.appNumber = "" then none else some (jsTrim p.appNumber))

/-- `existingNames` of `handleImportPatent`: the trimmed, non-blank names
of the stored records. -/
def existingNames (ps : List Patent) : List String :=
  ps.filterMap (fun p => if jsTrim p.name = "" then none else some (jsTrim p.name))

/-- The duplicate filter of `handleImportPatent`: the two mutable JS `Set`s
are explicit accumulators; a record with a non-blank trimmed application
number is kept iff that key is not in the set, and registers its key on
acceptance; else the same logic runs keyed on the trimmed name; else the
record is kept unconditionally. -/
def dedupeBatch (apps names : List String) : List Patent → List Patent
  | [] => []
  | p :: rest =>
    if jsTrim p.appNumber ≠ "" then
      if jsTrim p.appNumber ∈ apps then dedupeBatch apps names rest
      else p :: dedupeBatch (jsTrim p.appNumber :: apps) names rest
    else if jsTrim p.name ≠ "" then
      if jsTrim p.name ∈ names then dedupeBatch apps names rest
      else p :: dedupeBatch apps (jsTrim p.name :: names) rest
    else p :: dedupeBatch apps names rest

/-- `uniquePatents` of `handleImportPatent`: the accepted records of a batch
against the existing store. -/
def uniquePatents (existing batch : List Patent) : List Patent :=
  dedupeBatch (existingAppNumbers existing) (existingNames existing) batch

/-- The Import Deduplicator rule as the spec states it, for the refinement
comparison: per incoming record in order, a non-blank trimmed application
number is rejected iff it occurs among the existing records' trimmed
application numbers or among those registered by earlier acceptances of the
batch, and registers itself on acceptance; else the same logic keyed on the
trimmed name; else the record is accepted unconditionally. -/
def specDedupe (exApps exNames accA accN : List String) : List Patent → List Patent
  | [] => []
  | p :: rest =>
    if jsTrim p.appNumber ≠ "" then
      if jsTrim p.appNumber ∈ exApps ∨ jsTrim p.appNumber ∈ accA then
        specDedupe exApps exNames accA accN rest
      else p :: specDedupe exApps exNames (jsTrim p.appNumber :: accA) accN rest
    else if jsTrim p.name ≠ "" then
      if jsTrim p.name ∈ exNames ∨ jsTrim p.name ∈ accN then
        specDedupe exApps exNames accA accN rest
      else p :: specDedupe exApps exNames accA (jsTrim p.name :: accN) rest
    else p :: specDedupe exApps exNames accA accN rest

theorem mem_existingAppNumbers {t : String} (ht : t ≠ "") (ps : List Patent) :
    t ∈ existingAppNumbers ps ↔ t ∈ ps.map (fun p => jsTrim p.appNumber) := by
  simp only [existingAppNumbers, List.mem_filterMap, List.mem_map]
  constructor
  · rintro ⟨p, hp, hf⟩
    by_cases h : jsTrim p.appNumber = ""
    · simp [h] at hf
    · simp only [h, if_false, Option.some.injEq] at hf
      exact ⟨p, hp, hf⟩
  · rintro ⟨p, hp, hf⟩
    refine ⟨p, hp, ?_⟩
    rw [hf]
    simp [ht]

theorem mem_existingNames {t : String} (ht : t ≠ "") (ps : List Patent) :
    t ∈ existingNames ps ↔ t ∈ ps.map (fun p => jsTrim p.name) := by
  simp only [existingNames, List.mem_filterMap, List.mem_map]
  constructor
  · rintro ⟨p, hp, hf⟩
    by_cases h : jsTrim p.name = ""
    · simp [h] at hf
    · simp only [h, if_false, Option.some.injEq] at hf
      exact ⟨p, hp, hf⟩
  · rintro ⟨p, hp, hf⟩
    refine ⟨p, hp, ?_⟩
    rw [hf]
    simp [ht]

theorem dedupe_eq_spec (ex : List Patent) (batch : List Patent) (accA accN : List String) :
    dedupeBatch (accA ++ existingAppNumbers ex) (accN ++ existingNames ex) batch =
      specDedupe (ex.map fun p => jsTrim p.appNumber) (ex.map fun p => jsTrim p.name)
        accA accN batch := by
  induction batch generalizing accA accN with
  | nil => rfl
  | cons p rest ih =>
    by_cases ha : jsTrim p.appNumber = ""
    · by_cases hn : jsTrim p.name = ""
      · simp only [dedupeBatch, specDedupe, ha, hn, ne_eq, not_true_eq_false, if_false,
          ite_self]
        simp [ih accA accN]
      · have hiff : jsTrim p.name ∈ accN ++ existingNames ex ↔
            (jsTrim p.name ∈ ex.map (fun q => jsTrim q.name) ∨ jsTrim p.name ∈ accN) := by
          rw [List.mem_append, mem_existingNames hn]
          tauto
        by_cases hmem : jsTrim p.name ∈ accN ++ existingNames ex
        · simp only [dedupeBatch, specDedupe, ha, hn, ne_eq, not_true_eq_false, if_false,
            not_false_eq_true, if_true, hmem, hiff.mp hmem]
          exact ih accA accN
        · have hnot : ¬(jsTrim p.name ∈ ex.map (fun q => jsTrim q.name) ∨
              jsTrim p.name ∈ accN) := fun h => hmem (hiff.mpr h)
          simp only [dedupeBatch, specDedupe, ha, hn, ne_eq, not_true_eq_false, if_false,
            not_false_eq_true, if_true, hmem, hnot, List.cons_append]
          exact congrArg (p :: ·) (ih accA (jsTrim p.name :: accN))
    · have hiff : jsTrim p.appNumber ∈ accA ++ existingAppNumbers ex ↔
          (jsTrim p.appNumber ∈ ex.map (fun q => jsTrim q.appNumber) ∨
            jsTrim p.appNumber ∈ accA) := by
        rw [List.mem_append, mem_existingAppNumbers ha]
        tauto
      by_cases hmem : jsTrim p.appNumber ∈ accA ++ existingAppNumbers ex
      · simp only [dedupeBatch, specDedupe, ha, ne_eq, not_false_eq_true, if_true, hmem,
          hiff.mp hmem]
        exact ih accA accN
      · have hnot : ¬(jsTrim p.appNumber ∈ ex.map (fun q => jsTrim q.appNumber) ∨
            jsTrim p.appNumber ∈ accA) := fun h => hmem (hiff.mpr h)
        simp only [dedupeBatch, specDedupe, ha, ne_eq, not_false_eq_true, if_true, hmem,
          hnot, List.cons_append]
        exact congrArg (p :: ·) (ih (jsTrim p.appNumber :: accA) accN)

theorem dedupeBatch_blank (apps names : List String) (ps : List Patent)
    (h : ∀ p ∈ ps, jsTrim p.appNumber = "" ∧ jsTrim p.name = "") :
    dedupeBatch apps names ps = ps := by
  induction ps with
  | nil => rfl
  | cons p rest ih =>
    obtain ⟨h1, h2⟩ := h p (by simp)
    simp only [dedupeBatch, h1, h2, ne_eq, not_true_eq_false, if_false]
    exact congrArg (p :: ·) (ih (fun q hq => h q (by simp [hq])))

/-- C2: the import deduplicator accepts or rejects each incoming record in
order: a record with a non-blank trimmed application number is rejected iff
that key occurs among the existing records' trimmed application numbers or
among the keys of records accepted earlier in the batch, and blocks later
batch duplicates on acceptance; else the same logic is keyed on the trimmed
name; else (both blank) the record is accepted unconditionally, so a batch
of records all with blank application number and blank name is accepted in
full. -/
theorem importDedupe_spec (existing batch : List Patent) :
    uniquePatents existing batch =
      specDedupe (existing.map fun p => jsTrim p.appNumber)
        (existing.map fun p => jsTrim p.name) [] [] batch ∧
    (∀ apps names ps, (∀ p ∈ ps, jsTrim p.appNumber = "" ∧ jsTrim p.name = "") →
      dedupeBatch apps names ps = ps) := by
  constructor
  · have h := dedupe_eq_spec existing batch [] []
    simpa [uniquePatents] using h
  · exact dedupeBatch_blank

/-- What `handleImportPatent` leaves behind: the new store, the number of
accepted records, the number of rejected (duplicate) records reported to
the user, and whether anything was added (the early return reports that no
records were added). -/
structure ImportResult where
  store : List Patent
  accepted : Nat
  duplicates : Nat
  added : Bool
deriving DecidableEq

/-- Steps 1-3 of `handleImportPatent` in `App.tsx`: dedupe the batch,
count the duplicates, return early with the store untouched when nothing
survived, otherwise prepend the accepted records to the store. -/
def handleImportPatent (store batch : List Patent) : ImportResult :=
  let uniq := uniquePatents store batch
  let dup := batch.length - uniq.length
  if uniq.length = 0 then
    { store := store, accepted := 0, duplicates := dup, added := false }
  else
    { store := uniq ++ store, accepted := uniq.length, duplicates := dup, added := true }

theorem handleImport_store (store batch : List Patent) :
    (handleImportPatent store batch).store = uniquePatents store batch ++ store := by
  unfold handleImportPatent
  by_cases h : (uniquePatents store batch).length = 0
  · simp [h, List.length_eq_zero.mp h]
  · simp [h]

/-- A concrete record for the example scenarios; unspecified fields blank. -/
def samplePatent (i : PatentId) (nm app : String) (st : PatentStatus) (due : Option Int) :
    Patent :=
  { id := i, name := nm, patentee := "", country := "", inventor := "", status := st,
    type := PatentType.Invention, appNumber := app, pubNumber := "", appDate := "",
    pubDate := "", duration := "", annuityDate := due, annuityYear := 0,
    notificationEmails := none, link := none }

/-- The stored record of the spec's example scenario:
`{appNumber:"112001", name:"A", status:Active, annuityDate: today+30}`. -/
def exampleStored : Patent :=
  samplePatent (PatentId.num 1) "A" "112001" PatentStatus.Active (some (30 * msPerDay))

/-- The imported record of the spec's example scenario:
`{appNumber:"112001", name:"B"}`. -/
def exampleIncoming : Patent :=
  samplePatent (PatentId.num 2) "B" "112001" PatentStatus.Active none

/-- C3: after an import the store equals the accepted records (in batch
order) prepended to the previous contents; the reported duplicate count is
the batch size minus the accepted count; if every record of the batch is
rejected the store is unchanged and the caller is told nothing was added;
and importing a single record whose application number matches a stored
record's leaves the store unchanged with 0 accepted and 1 duplicate. -/
theorem importResult_spec (store batch : List Patent) :
    (handleImportPatent store batch).store = uniquePatents store batch ++ store ∧
    (handleImportPatent store batch).duplicates =
      batch.length - (handleImportPatent store batch).accepted ∧
    ((handleImportPatent store batch).accepted = 0 →
      (handleImportPatent store batch).store = store ∧
      (handleImportPatent store batch).added = false) ∧
    handleImportPatent [exampleStored] [exampleIncoming] =
      { store := [exampleStored], accepted := 0, duplicates := 1, added := false } := by
  refine ⟨handleImport_store store batch, ?_, ?_, ?_⟩
  · unfold handleImportPatent
    by_cases h : (uniquePatents store batch).length = 0 <;> simp [h]
  · unfold handleImportPatent
    by_cases h : (uniquePatents store batch).length = 0 <;> simp [h]
  · decide

/-- Importing one record (`newData` not an array): the store afterwards. -/
def importOnce (store : List Patent) (p : Patent) : List Patent :=
  (handleImportPatent store [p]).store

theorem existingAppNumbers_cons (p : Patent) (ps : List Patent) :
    existingAppNumbers (p :: ps) =
      if jsTrim p.appNumber = "" then existingAppNumbers ps
      else jsTrim p.appNumber :: existingAppNumbers ps := by
  by_cases h : jsTrim p.appNumber = "" <;>
    simp [existingAppNumbers, List.filterMap_cons, h]

theorem existingNames_cons (p : Patent) (ps : List Patent) :
    existingNames (p :: ps) =
      if jsTrim p.name = "" then existingNames ps
      else jsTrim p.name :: existingNames ps := by
  by_cases h : jsTrim p.name = "" <;>
    simp [existingNames, List.filterMap_cons, h]

theorem mem_existingAppNumbers_of_mem {p : Patent} {ps : List Patent} (hp : p ∈ ps)
    (h : jsTrim p.appNumber ≠ "") : jsTrim p.appNumber ∈ existingAppNumbers ps := by
  simp only [existingAppNumbers, List.mem_filterMap]
  exact ⟨p, hp, by simp [h]⟩

theorem mem_existingNames_of_mem {p : Patent} {ps : List Patent} (hp : p ∈ ps)
    (h : jsTrim p.name ≠ "") : jsTrim p.name ∈ existingNames ps := by
  simp only [existingNames, List.mem_filterMap]
  exact ⟨p, hp, by simp [h]⟩

theorem uniquePatents_single (store : List Patent) (p : Patent) :
    uniquePatents store [p] =
      if jsTrim p.appNumber ≠ "" then
        (if jsTrim p.appNumber ∈ existingAppNumbers store then [] else [p])
      else if jsTrim p.name ≠ "" then
        (if jsTrim p.name ∈ existingNames store then [] else [p])
      else [p] := by
  simp only [uniquePatents, dedupeBatch]

theorem importOnce_eq (store : List Patent) (p : Patent) :
    importOnce store p = uniquePatents store [p] ++ store :=
  handleImport_store store [p]

/-- C4: import is idempotent for a well-formed record (one whose trimmed
application number or trimmed name is non-blank): importing it a second
time never changes the store; when its key is new to the store, the
double import leaves exactly one copy of it; and a batch of two records
with the same fresh non-blank application number has exactly the first
accepted. -/
theorem import_idempotent_spec (store : List Patent) (p r1 r2 : Patent) :
    (¬(jsTrim p.appNumber = "" ∧ jsTrim p.name = "") →
      importOnce (importOnce store p) p = importOnce store p) ∧
    (jsTrim p.appNumber ≠ "" → jsTrim p.appNumber ∉ existingAppNumbers store →
      (importOnce (importOnce store p) p).count p = 1) ∧
    (jsTrim p.appNumber = "" → jsTrim p.name ≠ "" → jsTrim p.name ∉ existingNames store →
      (importOnce (importOnce store p) p).count p = 1) ∧
    (jsTrim r1.appNumber ≠ "" → jsTrim r1.appNumber = jsTrim r2.appNumber →
      jsTrim r1.appNumber ∉ existingAppNumbers store →
      uniquePatents store [r1, r2] = [r1]) := by
  have happ_fresh : jsTrim p.appNumber ≠ "" → jsTrim p.appNumber ∉ existingAppNumbers store →
      importOnce (importOnce store p) p = p :: store := by
    intro ha hm
    have h1 : importOnce store p = p :: store := by
      rw [importOnce_eq, uniquePatents_single]
      simp [ha, hm]
    rw [h1, importOnce_eq, uniquePatents_single]
    have h2 : jsTrim p.appNumber ∈ existingAppNumbers (p :: store) := by
      rw [existingAppNumbers_cons]
      simp [ha]
    simp [ha, h2]
  have hname_fresh : jsTrim p.appNumber = "" → jsTrim p.name ≠ "" →
      jsTrim p.name ∉ existingNames store →
      importOnce (importOnce store p) p = p :: store := by
    intro ha hn hm
    have h1 : importOnce store p = p :: store := by
      rw [importOnce_eq, uniquePatents_single]
      simp [ha, hn, hm]
    rw [h1, importOnce_eq, uniquePatents_single]
    have h2 : jsTrim p.name ∈ existingNames (p :: store) := by
      rw [existingNames_cons]
      simp [hn]
    simp [ha, hn, h2]
  refine ⟨?_, ?_, ?_, ?_⟩
  · intro hwf
    by_cases ha : jsTrim p.appNumber = ""
    · have hn : jsTrim p.name ≠ "" := fun h => hwf ⟨ha, h⟩
      by_cases hm : jsTrim p.name ∈ existingNames store
      · have h1 : importOnce store p = store := by
          rw [importOnce_eq, uniquePatents_single]
          simp [ha, hn, hm]
        rw [h1]
        rw [importOnce_eq, uniquePatents_single]
        simp [ha, hn, hm]
      · have h1 : importOnce store p = p :: store := by
          rw [importOnce_eq, uniquePatents_single]
          simp [ha, hn, hm]
        rw [hname_fresh ha hn hm, h1]
    · by_cases hm : jsTrim p.appNumber ∈ existingAppNumbers store
      · have h1 : importOnce store p = store := by
          rw [importOnce_eq, uniquePatents_single]
          simp [ha, hm]
        rw [h1]
        rw [importOnce_eq, uniquePatents_single]
        simp [ha, hm]
      · have h1 : importOnce store p = p :: store := by
          rw [importOnce_eq, uniquePatents_single]
          simp [ha, hm]
        rw [happ_fresh ha hm, h1]
  · intro ha hm
    rw [happ_fresh ha hm]
    have hnot : p ∉ store := fun hp => hm (mem_existingAppNumbers_of_mem hp ha)
    rw [List.count_cons_self, List.count_eq_zero.mpr hnot]
  · intro ha hn hm
    rw [hname_fresh ha hn hm]
    have hnot : p ∉ store := fun hp => hm (mem_existingNames_of_mem hp hn)
    rw [List.count_cons_self, List.count_eq_zero.mpr hnot]
  · intro ha heq hm
    simp only [uniquePatents, dedupeBatch]
    rw [← heq]
    simp [ha, hm]

/-- `handleConfirmDelete` of `App.tsx`: keep the records whose stringified
id differs from the target's (`String(p.id) !== String(patentToDelete.id)`). -/
def handleConfirmDelete (ps : List Patent) (target : Patent) : List Patent :=
  ps.filter (fun p => idToString p.id != idToString target.id)

/-- `handleUpdatePatent` of `App.tsx`: map each record to the updated one
when its id is strictly equal (`===`) to the updated record's id. -/
def handleUpdatePatent (ps : List Patent) (u : Patent) : List Patent :=
  ps.map (fun p => if idStrictEq p.id u.id then u else p)

theorem idStrictEq_refl (i : PatentId) : idStrictEq i i = true := by
  cases i <;> simp [idStrictEq]

/-- C9: confirmed deletion removes exactly the records whose id converted
to a string equals the target's id converted to a string — identifying a
numeric id 5 with a string id "5" — and keeps the remaining records in
order; edit-save replaces records under strict id equality (no coercion:
a numeric 5 is not replaced by a save targeting the string "5") and always
preserves the store's length and positions. -/
theorem delete_update_spec (ps : List Patent) (target u p : Patent) :
    (∀ q : Patent, q ∈ handleConfirmDelete ps target ↔
      (q ∈ ps ∧ idToString q.id ≠ idToString target.id)) ∧
    (handleConfirmDelete ps target).Sublist ps ∧
    idToString (PatentId.num 5) = idToString (PatentId.str "5") ∧
    handleConfirmDelete [{ p with id := PatentId.num 5 }]
      { target with id := PatentId.str "5" } = [] ∧
    (handleUpdatePatent ps u).length = ps.length ∧
    (∀ i : Nat, (handleUpdatePatent ps u)[i]? =
      (ps[i]?).map (fun q => if idStrictEq q.id u.id then u else q)) ∧
    idStrictEq (PatentId.num 5) (PatentId.str "5") = false ∧
    handleUpdatePatent [{ p with id := PatentId.num 5 }] { u with id := PatentId.str "5" } =
      [{ p with id := PatentId.num 5 }] ∧
    handleUpdatePatent [{ p with id := u.id }] u = [u] := by
  refine ⟨?_, ?_, ?_, ?_, ?_, ?_, ?_, ?_, ?_⟩
  · intro q
    simp [handleConfirmDelete, List.mem_filter, bne_iff_ne]
  · exact List.filter_sublist _
  · decide
  · simp [handleConfirmDelete, idToString]
    decide
  · simp [handleUpdatePatent]
  · intro i
    simp [handleUpdatePatent, List.getElem?_map]
  · decide
  · simp [handleUpdatePatent, idStrictEq]
  · simp [handleUpdatePatent, idStrictEq_refl]

/-- A spreadsheet cell value as the export row carries it: a string, a
number (the annuity year), or the JS `undefined` of an absent field that
the row copies raw. -/
inductive ExportCell where
  | str (s : String)
  | nat (n : Nat)
  | undef
deriving DecidableEq

/-- The source status values '存續中', '已屆期', '審查中'. -/
def statusText : PatentStatus → String
  | .Active => "存續中"
  | .Expired => "已屆期"
  | .UnderExamination => "審查中"

/-- The source type values '發明', '新型', '設計'. -/
def typeText : PatentType → String
  | .Invention => "發明"
  | .Utility => "新型"
  | .Design => "設計"

/-- Modelled from the spec: a stored record as the export formatter reads
it (`types.ts` is not under `src/`).  Spec section 3 makes the descriptive
fields optional except the name, `annuityDate` is a date only "when
present", and records can reach the store as parsed `Partial<Patent>`
values, so every field the row copies other than the name and the
enumerated classification may be absent (`undefined` in JS). -/
structure StoredPatent where
  name : String
  patentee : Option String
  country : Option String
  inventor : Option String
  abstract : Option String
  status : PatentStatus
  type : PatentType
  appNumber : Option String
  pubNumber : Option String
  appDate : Option String
  pubDate : Option String
  duration : Option String
  annuityDate : Option String
  annuityYear : Option Nat
  notificationEmails : Option String
  link : Option String
deriving DecidableEq

/-- An optional string field copied into the row raw, with no `|| ''`
default: an absent field stays `undefined`. -/
def jsStrCell : Option String → ExportCell
  | none => ExportCell.undef
  | some s => ExportCell.str s

/-- An optional numeric field copied into the row raw. -/
def jsNatCell : Option Nat → ExportCell
  | none => ExportCell.undef
  | some n => ExportCell.nat n

/-- One row of `exportData` in `handleExport`, in the source's key order:
only `notificationEmails` and `link` are defaulted with `|| ''`; every
other field — the annuity date included — is copied raw, so an absent one
stays `undefined` in the row. -/
def exportRow (p : StoredPatent) : List (String × ExportCell) :=
  [("專利名稱", ExportCell.str p.name),
   ("專利權人", jsStrCell p.patentee),
   ("申請國家", jsStrCell p.country),
   ("狀態", ExportCell.str (statusText p.status)),
   ("類型", ExportCell.str (typeText p.type)),
   ("申請號", jsStrCell p.appNumber),
   ("公開/公告號", jsStrCell p.pubNumber),
   ("申請日", jsStrCell p.appDate),
   ("公開/公告日", jsStrCell p.pubDate),
   ("專利期間", jsStrCell p.duration),
   ("年費到期日", jsStrCell p.annuityDate),
   ("年費有效年次", jsNatCell p.annuityYear),
   ("通知信箱", ExportCell.str (p.notificationEmails.getD "")),
   ("發明人", jsStrCell p.inventor),
   ("連結", ExportCell.str (p.link.getD ""))]

/-- The fixed column order of the exported sheet. -/
def exportHeaders : List String :=
  ["專利名稱", "專利權人", "申請國家", "狀態", "類型", "申請號", "公開/公告號",
   "申請日", "公開/公告日", "專利期間", "年費到期日", "年費有效年次", "通知信箱",
   "發明人", "連結"]

/-- `exportData` of `handleExport`: one row per record of the filtered view. -/
def exportData (ps : List StoredPatent) : List (List (String × ExportCell)) :=
  ps.map exportRow

/-- A record of the filtered view with every exported field present, as
the export reads it; used to state the row-count tie to the filter view. -/
def toStoredPatent (p : Patent) : StoredPatent :=
  { name := p.name, patentee := some p.patentee, country := some p.country,
    inventor := some p.inventor, abstract := none, status := p.status, type := p.type,
    appNumber := some p.appNumber, pubNumber := some p.pubNumber,
    appDate := some p.appDate, pubDate := some p.pubDate, duration := some p.duration,
    annuityDate := p.annuityDate.map (fun d => toString d),
    annuityYear := some p.annuityYear,
    notificationEmails := p.notificationEmails, link := p.link }

/-- A concrete stored record whose patentee and annuity date are absent. -/
def exampleExportPatent : StoredPatent :=
  { name := "A", patentee := none, country := some "TW (台灣)", inventor := some "I",
    abstract := none, status := PatentStatus.Active, type := PatentType.Invention,
    appNumber := some "112001", pubNumber := some "P1", appDate := some "2023-01-01",
    pubDate := some "2023-06-01", duration := some "20 年", annuityDate := none,
    annuityYear := some 3, notificationEmails := none, link := none }

theorem jsStrCell_ne_undef (o : Option String) :
    jsStrCell o ≠ ExportCell.undef ↔ o.isSome := by
  cases o <;> simp [jsStrCell]

theorem jsNatCell_ne_undef (o : Option Nat) :
    jsNatCell o ≠ ExportCell.undef ↔ o.isSome := by
  cases o <;> simp [jsNatCell]

/-- C6 counterexample: a record with an absent patentee and an absent
annuity date exports to a row whose 專利權人 and 年費到期日 columns hold
`undefined` — not the empty string — so a missing optional field outside
`notificationEmails` and `link` is not replaced, and a row can contain
undefined. -/
theorem exportRow_undef :
    (exportRow exampleExportPatent)[1]? = some ("專利權人", ExportCell.undef) ∧
    (exportRow exampleExportPatent)[10]? = some ("年費到期日", ExportCell.undef) ∧
    ExportCell.undef ≠ ExportCell.str "" ∧
    (exportData [exampleExportPatent]).length = 1 := by
  refine ⟨rfl, rfl, by decide, rfl⟩

/-- C6 (amended): the export produces exactly one row per filtered record
(equal counts) with the fixed stable column order; the two fields the code
defaults with `|| ''` — the notification emails and the link — are
replaced by the empty string when missing; every other field is copied
raw, so a row is free of null/undefined exactly when all the other
optional fields of its record are present. -/
theorem exportData_spec (ps : List StoredPatent) (p : StoredPatent) :
    (exportData ps).length = ps.length ∧
    (∀ (qs : List Patent) (term : String) (f : StatusFilter),
      (exportData ((filteredPatents qs term f).map toStoredPatent)).length =
        (filteredPatents qs term f).length) ∧
    (exportRow p).map Prod.fst = exportHeaders ∧
    (exportRow p)[12]? = some ("通知信箱", ExportCell.str (p.notificationEmails.getD "")) ∧
    (exportRow p)[14]? = some ("連結", ExportCell.str (p.link.getD "")) ∧
    (exportRow { p with notificationEmails := none })[12]? =
      some ("通知信箱", ExportCell.str "") ∧
    (exportRow { p with link := none })[14]? = some ("連結", ExportCell.str "") ∧
    ((∀ c ∈ exportRow p, c.2 ≠ ExportCell.undef) ↔
      (p.patentee.isSome ∧ p.country.isSome ∧ p.appNumber.isSome ∧ p.pubNumber.isSome ∧
        p.appDate.isSome ∧ p.pubDate.isSome ∧ p.duration.isSome ∧ p.annuityDate.isSome ∧
        p.annuityYear.isSome ∧ p.inventor.isSome)) := by
  refine ⟨?_, ?_, rfl, rfl, rfl, rfl, rfl, ?_⟩
  · simp [exportData]
  · intro qs term f
    simp [exportData]
  · simp only [exportRow, List.mem_cons, List.not_mem_nil, or_false, forall_eq_or_imp,
      forall_eq, ne_eq, reduceCtorEq, not_false_eq_true, true_and,
      jsStrCell_ne_undef, jsNatCell_ne_undef]
    tauto

/-- The outcome of one call to the external generation service as seen at
the adapter boundary: either the call threw (missing credential, network
failure, any rejected promise) or it returned with a response text, which
may be empty (a missing `response.text`). -/
inductive GenOutcome where
  | err
  | ok (text : String)
deriving DecidableEq

/-- The fixed reply of `sendMessageToGemini` when the call returns no text
(`response.text || '...'`). -/
def chatEmptyFallback : String := "抱歉，我現在無法回答您的問題。"

/-- The fixed reply built in the `catch` branch of `sendMessageToGemini`. -/
def chatErrorFallback : String := "發生錯誤，請檢查您的網路連線或 API Key 設定。"

/-- One context line of the prompt: `ID: ..., 名稱: ..., ...` (a blank
annuity date prints as the empty string). -/
def patentContextLine (p : Patent) : String :=
  "ID: " ++ idToString p.id ++ ", 名稱: " ++ p.name ++ ", 專利權人: " ++ p.patentee ++
    ", 狀態: " ++ statusText p.status ++ ", 國家: " ++ p.country ++ ", 發明人: " ++
    p.inventor ++ ", 類型: " ++ typeText p.type ++ ", 年費到期日: " ++
    (match p.annuityDate with
      | none => ""
      | some d => toString d)

/-- `fullMessage` of `sendMessageToGemini`: the message alone, or the
context block followed by the user question. -/
def buildFullMessage (message : String) (context : List Patent) : String :=
  if context.isEmpty then message
  else
    "Here is the context of the patents I am currently viewing:\n" ++
      String.intercalate "\n" (context.map patentContextLine) ++
      "\n\nUser Question: " ++ message

/-- `sendMessageToGemini` of `geminiService.ts`: send the full message,
substitute the fixed fallback for an empty response text, and convert any
thrown failure into the fixed error reply. -/
def sendMessageToGemini (call : String → GenOutcome) (message : String)
    (context : List Patent) : String :=
  match call (buildFullMessage message context) with
  | .err => chatErrorFallback
  | .ok t => if t = "" then chatEmptyFallback else t

/-- The canned simulated reply of the mock service variant. -/
def mockChatReply : String :=
  "（此為模擬回應：系統檢測到您未設定 API Key 且瀏覽器不支援原生 AI）\n\n根據您的專利資料，目前的專利組合主要集中在發明專利，且部分專利即將面臨年費繳納期限。建議您儘早檢視「期限提醒」區塊。"

/-- `fullMessage` of the mock service variant. -/
def mockFullMessage (message : String) (context : List Patent) : String :=
  if context.isEmpty then message
  else "Context: " ++ toString context.length ++ " patents loaded. User Question: " ++ message

/-- `sendMessageToGemini` of the mock service variant: try the native
browser model when available, fall back to the canned simulated reply when
it is unavailable or fails. -/
def sendMessageToGeminiMock (nativeAvailable : Bool) (native : String → Except Unit String)
    (message : String) (context : List Patent) : String :=
  if nativeAvailable then
    match native (mockFullMessage message context) with
    | .ok r => r
    | .error _ => mockChatReply
  else mockChatReply

/-- C7: the assistant adapter always returns a string and never propagates
a failure: a thrown generation call (missing credential, network failure)
yields the fixed error reply, an empty response yields the fixed fallback
reply, and a non-empty response is returned as is, so every invocation
lands in one of those three cases; the mock variant likewise returns the
canned reply when the native model is unavailable or fails. -/
theorem sendMessage_spec (call : String → GenOutcome) (message : String)
    (context : List Patent) (native : String → Except Unit String) :
    (call (buildFullMessage message context) = GenOutcome.err →
      sendMessageToGemini call message context = chatErrorFallback) ∧
    (call (buildFullMessage message context) = GenOutcome.ok "" →
      sendMessageToGemini call message context = chatEmptyFallback) ∧
    (∀ t : String, t ≠ "" → call (buildFullMessage message context) = GenOutcome.ok t →
      sendMessageToGemini call message context = t) ∧
    (sendMessageToGemini call message context = chatErrorFallback ∨
      sendMessageToGemini call message context = chatEmptyFallback ∨
      ∃ t : String, call (buildFullMessage message context) = GenOutcome.ok t ∧
        sendMessageToGemini call message context = t) ∧
    sendMessageToGeminiMock false native message context = mockChatReply ∧
    (∀ e : Unit, native (mockFullMessage message context) = Except.error e →
      sendMessageToGeminiMock true native message context = mockChatReply) := by
  refine ⟨?_, ?_, ?_, ?_, ?_, ?_⟩
  · intro h; simp [sendMessageToGemini, h]
  · intro h; simp [sendMessageToGemini, h]
  · intro t ht h; simp [sendMessageToGemini, h, ht]
  · unfold sendMessageToGemini
    cases hc : call (buildFullMessage message context) with
    | err => exact Or.inl rfl
    | ok t =>
      by_cases ht : t = ""
      · exact Or.inr (Or.inl (by simp [ht]))
      · exact Or.inr (Or.inr ⟨t, rfl, by simp [ht]⟩)
  · rfl
  · intro e h; simp [sendMessageToGeminiMock, h]

/-- `Partial<Patent>`: every field optional, as the JSON-schema response
and the mock generator produce it. -/
structure PartialPatent where
  name : Option String
  patentee : Option String
  country : Option String
  status : Option PatentStatus
  type : Option PatentType
  appNumber : Option String
  pubNumber : Option String
  appDate : Option String
  pubDate : Option String
  duration : Option String
  annuityDate : Option String
  annuityYear : Option Nat
  inventor : Option String
  abstract : Option String
  link : Option String
deriving DecidableEq

/-- The extraction prompt of `parsePatentFromText` with the text spliced in. -/
def parseTextPrompt (text : String) : String :=
  "Analyze the provided text and extract patent information into a JSON object.\n" ++
    "The input text might be messy or unstructured. Try to find the following fields.\n" ++
    "Mapping Rules: status, type, country, dates, duration, annuityYear, inventor, patentee.\n" ++
    "Text to Parse:\n\"\"\"\n" ++ text ++ "\n\"\"\"\n"

/-- `parsePatentFromText` of `geminiService.ts`: send the extraction
prompt; a thrown call (including a throwing `JSON.parse`, modelled by the
parse function returning `none`) or an empty response text yields `null`. -/
def parsePatentFromText (parse : String → Option PartialPatent)
    (call : String → GenOutcome) (text : String) : Option PartialPatent :=
  match call (parseTextPrompt text) with
  | .err => none
  | .ok t => if t = "" then none else parse t

/-- `parsePatentFromFile` of `geminiService.ts`: same failure handling;
the request carries the document payload, so only the outcome is modelled. -/
def parsePatentFromFile (parse : String → Option PartialPatent)
    (result : GenOutcome) : Option PartialPatent :=
  match result with
  | .err => none
  | .ok t => if t = "" then none else parse t

/-- `generateMockPatentData` of the mock service variant: a fabricated,
plausible-looking partial record derived from the input text; the two
`Math.random` draws and the computed next-year date are parameters. -/
def generateMockPatentData (text : String) (appRand pubRand : Nat) (nextYear : String) :
    PartialPatent :=
  { name := some (if text.length > 10 then text.take 15 ++ "..." else "智慧型專利分析系統"),
    patentee := some "創新科技有限公司",
    country := some (if strIncludes text "US" then "US (美國)" else "TW (台灣)"),
    status := some PatentStatus.Active,
    type := some (if strIncludes text "新型" || strIncludes text "Utility" then
        PatentType.Utility
      else if strIncludes text "發明" || strIncludes text "Invention" then
        PatentType.Invention
      else PatentType.Design),
    appNumber := some ("112" ++ toString appRand),
    pubNumber := some ("I" ++ toString pubRand),
    appDate := some "2023-01-15",
    pubDate := some "2023-08-20",
    duration := some "2023-01-15 ~ 2043-01-15",
    annuityDate := some nextYear,
    annuityYear := some 3,
    inventor := some "王小明, 陳大文",
    abstract := some (text.take 100),
    link := none }

/-- `parsePatentFromText` of the mock service variant: try the native
model and the JSON found in its reply; when the native model is
unavailable or fails, when no JSON is found, or when parsing it throws,
resolve with the fabricated mock record. -/
def parsePatentFromTextMock (nativeAvailable : Bool)
    (native : String → Except Unit String) (extractJson : String → Option String)
    (parse : String → Option PartialPatent) (appRand pubRand : Nat) (nextYear : String)
    (text : String) : Option PartialPatent :=
  if nativeAvailable then
    match native ("Parse this text to JSON: " ++ text) with
    | .error _ => some (generateMockPatentData text appRand pubRand nextYear)
    | .ok response =>
      match extractJson response with
      | none => some (generateMockPatentData text appRand pubRand nextYear)
      | some j =>
        match parse j with
        | none => some (generateMockPatentData text appRand pubRand nextYear)
        | some r => some r
  else some (generateMockPatentData text appRand pubRand nextYear)

/-- The hardcoded record resolved by the mock service's file parser. -/
def mockFilePatent : PartialPatent :=
  { name := some "高效能 PDF 文件解析方法",
    patentee := some "數位檔案股份有限公司",
    country := some "JP (日本)",
    status := some PatentStatus.Active,
    type := some PatentType.Invention,
    appNumber := some "JP-2023-001234",
    pubNumber := some "JP-2024-005678",
    appDate := some "2023-03-10",
    pubDate := some "2024-03-10",
    duration := some "20 年",
    annuityDate := some "2025-03-10",
    annuityYear := some 2,
    inventor := some "田中 太郎",
    abstract := none,
    link := some "https://www.jpo.go.jp/" }

/-- `parsePatentFromFile` of the mock service variant: always resolves
with the hardcoded simulated record. -/
def parsePatentFromFileMock : Option PartialPatent := some mockFilePatent

/-- C8 counterexample: the mock variant of `parsePatentFromText`, on a
failing native generation call (an API failure — a failure to produce a
parse), returns a fabricated mock record instead of the no-result `null`
the claim requires of the parsing capabilities. -/
theorem parseMock_fabricates :
    parsePatentFromTextMock true (fun _ => Except.error ()) (fun _ => none) (fun _ => none)
        42 7 "2026-01-01" "test patent text" =
      some (generateMockPatentData "test patent text" 42 7 "2026-01-01") ∧
    parsePatentFromTextMock true (fun _ => Except.error ()) (fun _ => none) (fun _ => none)
        42 7 "2026-01-01" "test patent text" ≠ none := by
  constructor
  · rfl
  · simp [parsePatentFromTextMock]

/-- C8 (amended): the `geminiService` parsers never throw and return
`null` on any failure (thrown call, empty response, malformed JSON), never
a fabricated record — a non-null result is always exactly what the JSON
parse produced from the response text; the demo mock variants also never
throw, but they resolve with a fabricated mock record (text) or a
hardcoded simulated record (file) instead of `null` on their fallback
paths. -/
theorem parse_noresult_spec (parse : String → Option PartialPatent)
    (call : String → GenOutcome) (text : String)
    (native : String → Except Unit String) (extractJson : String → Option String)
    (appRand pubRand : Nat) (nextYear : String) :
    parsePatentFromText parse (fun _ => GenOutcome.err) text = none ∧
    parsePatentFromText parse (fun _ => GenOutcome.ok "") text = none ∧
    (∀ t : String, t ≠ "" → call (parseTextPrompt text) = GenOutcome.ok t →
      parsePatentFromText parse call text = parse t) ∧
    (∀ r : PartialPatent, parsePatentFromText parse call text = some r →
      ∃ t : String, call (parseTextPrompt text) = GenOutcome.ok t ∧ parse t = some r) ∧
    parsePatentFromFile parse GenOutcome.err = none ∧
    parsePatentFromFile parse (GenOutcome.ok "") = none ∧
    (∀ (o : GenOutcome) (r : PartialPatent), parsePatentFromFile parse o = some r →
      ∃ t : String, o = GenOutcome.ok t ∧ parse t = some r) ∧
    parsePatentFromTextMock false native extractJson parse appRand pubRand nextYear text =
      some (generateMockPatentData text appRand pubRand nextYear) ∧
    (native ("Parse this text to JSON: " ++ text) = Except.error () →
      parsePatentFromTextMock true native extractJson parse appRand pubRand nextYear text =
        some (generateMockPatentData text appRand pubRand nextYear)) ∧
    parsePatentFromFileMock = some mockFilePatent := by
  refine ⟨rfl, rfl, ?_, ?_, rfl, rfl, ?_, rfl, ?_, rfl⟩
  · intro t ht h
    simp [parsePatentFromText, h, ht]
  · intro r h
    unfold parsePatentFromText at h
    cases hc : call (parseTextPrompt text) with
    | err => rw [hc] at h; simp at h
    | ok t =>
      rw [hc] at h
      by_cases ht : t = ""
      · simp [ht] at h
      · refine ⟨t, rfl, ?_⟩
        simpa [ht] using h
  · intro o r h
    unfold parsePatentFromFile at h
    cases o with
    | err => simp at h
    | ok t =>
      by_cases ht : t = ""
      · simp [ht] at h
      · exact ⟨t, rfl, by simpa [ht] using h⟩
  · intro h
    simp [parsePatentFromTextMock, h]

end LegalReport
